import Mathlib

set_option maxRecDepth 100000

/-!
Verification development for the MHFC-Calendar repository
(scrape → normalize → diff → sync pipeline).

The Python sources are shallowly embedded: pure fragments become Lean
functions, the stateful sync loop becomes an explicit state-passing
function over an abstract calendar backend, and `hashlib.md5` is embedded
as a full executable MD5 over UTF-8 byte lists.
-/

namespace MHFC

/-! ## MD5 (embedding of Python's `hashlib.md5(...).hexdigest()`)

Operates on `List Nat` of bytes; 32-bit words are `Nat` reduced `% 2^32`
at every step.  Strings are encoded to UTF-8 bytes exactly as Python's
`str.encode('utf-8')` does. -/

namespace MD5

/-- UTF-8 encoding of a single character (same bytes as Python's `str.encode`). -/
def utf8Char (c : Char) : List Nat :=
  let n := c.toNat
  if n < 0x80 then [n]
  else if n < 0x800 then [0xC0 + n / 64, 0x80 + n % 64]
  else if n < 0x10000 then [0xE0 + n / 4096, 0x80 + (n / 64) % 64, 0x80 + n % 64]
  else [0xF0 + n / 262144, 0x80 + (n / 4096) % 64, 0x80 + (n / 64) % 64, 0x80 + n % 64]

/-- UTF-8 bytes of a string. -/
def utf8Bytes (s : String) : List Nat :=
  (s.toList.map utf8Char).flatten

/-- The 64 MD5 round constants `K[i] = floor(2^32 * |sin(i+1)|)`. -/
def K : List Nat :=
  [0xd76aa478, 0xe8c7b756, 0x242070db, 0xc1bdceee,
   0xf57c0faf, 0x4787c62a, 0xa8304613, 0xfd469501,
   0x698098d8, 0x8b44f7af, 0xffff5bb1, 0x895cd7be,
   0x6b901122, 0xfd987193, 0xa679438e, 0x49b40821,
   0xf61e2562, 0xc040b340, 0x265e5a51, 0xe9b6c7aa,
   0xd62f105d, 0x02441453, 0xd8a1e681, 0xe7d3fbc8,
   0x21e1cde6, 0xc33707d6, 0xf4d50d87, 0x455a14ed,
   0xa9e3e905, 0xfcefa3f8, 0x676f02d9, 0x8d2a4c8a,
   0xfffa3942, 0x8771f681, 0x6d9d6122, 0xfde5380c,
   0xa4beea44, 0x4bdecfa9, 0xf6bb4b60, 0xbebfbc70,
   0x289b7ec6, 0xeaa127fa, 0xd4ef3085, 0x04881d05,
   0xd9d4d039, 0xe6db99e5, 0x1fa27cf8, 0xc4ac5665,
   0xf4292244, 0x432aff97, 0xab9423a7, 0xfc93a039,
   0x655b59c3, 0x8f0ccc92, 0xffeff47d, 0x85845dd1,
   0x6fa87e4f, 0xfe2ce6e0, 0xa3014314, 0x4e0811a1,
   0xf7537e82, 0xbd3af235, 0x2ad7d2bb, 0xeb86d391]

/-- The 64 per-round left-rotation amounts. -/
def S : List Nat :=
  [7, 12, 17, 22, 7, 12, 17, 22, 7, 12, 17, 22, 7, 12, 17, 22,
   5, 9, 14, 20, 5, 9, 14, 20, 5, 9, 14, 20, 5, 9, 14, 20,
   4, 11, 16, 23, 4, 11, 16, 23, 4, 11, 16, 23, 4, 11, 16, 23,
   6, 10, 15, 21, 6, 10, 15, 21, 6, 10, 15, 21, 6, 10, 15, 21]

/-- Left rotation of a 32-bit word. -/
def rotl32 (x n : Nat) : Nat :=
  (((x <<< n) % 2 ^ 32) ||| (x >>> (32 - n)))

/-- Round function and message-word index for step `i`. -/
def fg (b c d i : Nat) : Nat × Nat :=
  if i < 16 then ((b &&& c) ||| ((b ^^^ 0xFFFFFFFF) &&& d), i)
  else if i < 32 then ((d &&& b) ||| ((d ^^^ 0xFFFFFFFF) &&& c), (5 * i + 1) % 16)
  else if i < 48 then (b ^^^ c ^^^ d, (3 * i + 5) % 16)
  else (c ^^^ (b ||| (d ^^^ 0xFFFFFFFF)), (7 * i) % 16)

/-- One of the 64 MD5 steps over state `(a,b,c,d)`. -/
def md5Step (M : List Nat) (st : Nat × Nat × Nat × Nat) (i : Nat) :
    Nat × Nat × Nat × Nat :=
  let (a, b, c, d) := st
  let p := fg b c d i
  let tmp := (a + p.1 + K.getD i 0 + M.getD p.2 0) % 2 ^ 32
  (d, (b + rotl32 tmp (S.getD i 0)) % 2 ^ 32, b, c)

/-- Decode a 64-byte chunk into 16 little-endian 32-bit words. -/
def chunkWords (chunk : List Nat) : List Nat :=
  (List.range 16).map fun j =>
    chunk.getD (4 * j) 0 + chunk.getD (4 * j + 1) 0 * 256 +
    chunk.getD (4 * j + 2) 0 * 65536 + chunk.getD (4 * j + 3) 0 * 16777216

/-- Process one 64-byte chunk. -/
def processChunk (st : Nat × Nat × Nat × Nat) (chunk : List Nat) :
    Nat × Nat × Nat × Nat :=
  let M := chunkWords chunk
  let r := (List.range 64).foldl (md5Step M) st
  ((st.1 + r.1) % 2 ^ 32, (st.2.1 + r.2.1) % 2 ^ 32,
   (st.2.2.1 + r.2.2.1) % 2 ^ 32, (st.2.2.2 + r.2.2.2) % 2 ^ 32)

/-- MD5 padding: append `0x80`, zero-pad to 56 mod 64, append the
64-bit little-endian bit length. -/
def padMessage (msg : List Nat) : List Nat :=
  let len := msg.length
  let bitLen := (len * 8) % 2 ^ 64
  let z := (120 - (len + 1) % 64) % 64
  msg ++ [0x80] ++ List.replicate z 0 ++
    ((List.range 8).map fun i => (bitLen >>> (8 * i)) % 256)

/-- Split into 64-byte chunks (fuel-indexed so it reduces in the kernel). -/
def chunks64Aux : Nat → List Nat → List (List Nat)
  | 0, _ => []
  | _, [] => []
  | fuel + 1, l => l.take 64 :: chunks64Aux fuel (l.drop 64)

def chunks64 (l : List Nat) : List (List Nat) :=
  chunks64Aux l.length l

/-- Little-endian bytes of a 32-bit word. -/
def wordBytes (w : Nat) : List Nat :=
  [w % 256, (w / 256) % 256, (w / 65536) % 256, (w / 16777216) % 256]

/-- MD5 digest (16 bytes) of a byte list. -/
def md5Bytes (msg : List Nat) : List Nat :=
  let st := (chunks64 (padMessage msg)).foldl processChunk
    (0x67452301, 0xefcdab89, 0x98badcfe, 0x10325476)
  wordBytes st.1 ++ wordBytes st.2.1 ++ wordBytes st.2.2.1 ++ wordBytes st.2.2.2

/-- Lowercase hex character for a nibble. -/
def hexChar (n : Nat) : Char :=
  if n < 10 then Char.ofNat (48 + n) else Char.ofNat (87 + n)

/-- Lowercase hex string of a byte list. -/
def toHex (bytes : List Nat) : String :=
  String.mk ((bytes.map fun b => [hexChar (b / 16), hexChar (b % 16)]).flatten)

/-- Embedding of `hashlib.md5(s.encode('utf-8')).hexdigest()`. -/
def md5Hex (s : String) : String :=
  toHex (md5Bytes (utf8Bytes s))

end MD5

/-! ## Data model

`RawMatch` embeds the dict produced by `parse_match_div` in `scaper.py`
(lines 151–160).  The scraper always emits all eight keys; `home_team`
and `away_team` may be `None` (both at once, on layout mismatch), which
is embedded as `Option String`. -/

structure RawMatch where
  date_day : String
  date_month : String
  time : String
  competition : String
  venue : String
  home_team : Option String
  away_team : Option String
  not_final_time : String
deriving DecidableEq, Repr

/-- Python's `str` rendering as used by an f-string: `None` renders as
`"None"`, a string renders as itself. -/
def pyOptStr : Option String → String
  | none => "None"
  | some s => s

/-! ## Fingerprint Engine (`auto_sync.calculate_matches_hash`, lines 56–68) -/

/-- The sort key `lambda x: (x['date_month'], x['date_day'], x['time'])`,
compared as Python compares string tuples: lexicographically, strings by
code points.  `Lex` products over the code-point-lexicographic linear
order on `List Char` give exactly this comparison. -/
def sortKey (m : RawMatch) : Lex (List Char × Lex (List Char × List Char)) :=
  toLex (m.date_month.toList, toLex (m.date_day.toList, m.time.toList))

/-- Relation: `a` sorts no later than `b` under the Python sort key. -/
def matchLE (a b : RawMatch) : Prop := sortKey a ≤ sortKey b

instance : DecidableRel matchLE := fun a b =>
  inferInstanceAs (Decidable (sortKey a ≤ sortKey b))

instance : IsTotal RawMatch matchLE := ⟨fun a b => le_total (sortKey a) (sortKey b)⟩

instance : IsTrans RawMatch matchLE := ⟨fun _ _ _ h h' => le_trans h h'⟩

/-- Embedding of `sorted(matches, key=...)`: Python's sort is stable, and a stable sort
is uniquely determined by the comparator, so the (stable) insertion sort
computes the same list. -/
def sortedMatches (ms : List RawMatch) : List RawMatch :=
  ms.insertionSort matchLE

/-- The per-match fragment appended to `match_string` (lines 64–66):
`f"{day}-{month}-{time}-{home}-{away}-{venue}-{competition}-{not_final}"`.
All eight keys are always present in scraper output, so
`match.get('not_final_time', '')` is the field itself. -/
def matchFieldString (m : RawMatch) : String :=
  m.date_day ++ "-" ++ m.date_month ++ "-" ++ m.time ++ "-" ++
  pyOptStr m.home_team ++ "-" ++ pyOptStr m.away_team ++ "-" ++
  m.venue ++ "-" ++ m.competition ++ "-" ++ m.not_final_time

/-- The concatenated `match_string` over the sorted list. -/
def matchString (ms : List RawMatch) : String :=
  String.join ((sortedMatches ms).map matchFieldString)

/-- Embedding of `calculate_matches_hash`: MD5 hexdigest of the UTF-8 encoded
concatenation. -/
def calculate_matches_hash (ms : List RawMatch) : String :=
  MD5.md5Hex (matchString ms)

/-! ## Scrape Orchestrator (`scaper.scrape_haifa_matches`, lines 73–101)

The two HTTP fetches are embedded as a list of pages; a page is `none`
when the request raised (the `except` logs and continues) and otherwise a
list of parse results, one per matched `div` (`parse_match_div` returns
`None`, embedded as `none`, when a fragment is malformed). -/

/-- Dedupe key `f"{date_day}-{date_month}-{home_team}-{away_team}"`
(line 90 of scaper.py; the same format is used for `event_ids` keys at
line 158 of auto_sync.py). -/
def match_key_str (m : RawMatch) : String :=
  m.date_day ++ "-" ++ m.date_month ++ "-" ++
  pyOptStr m.home_team ++ "-" ++ pyOptStr m.away_team

/-- One parsed match is appended to `all_matches` unless its key is
already in `processed_games`; the set is embedded as the list of keys in
insertion order (only membership is ever used). -/
def dedupeStep (acc : List RawMatch × List String) (m : RawMatch) :
    List RawMatch × List String :=
  if acc.2.contains (match_key_str m) then acc
  else (acc.1 ++ [m], acc.2 ++ [match_key_str m])

/-- The inner loop over a page's match divs: `if match_data:` is true
exactly when `parse_match_div` returned a dict. -/
def processPage (acc : List RawMatch × List String)
    (divs : List (Option RawMatch)) : List RawMatch × List String :=
  divs.foldl (fun a od => match od with | none => a | some m => dedupeStep a m) acc

/-- Embedding of `scrape_haifa_matches`: the outer loop over requests;
a failed request (`none`) contributes nothing and the loop continues. -/
def scrape_haifa_matches (pages : List (Option (List (Option RawMatch)))) :
    List RawMatch :=
  (pages.foldl
    (fun acc page => match page with | none => acc | some divs => processPage acc divs)
    ([], [])).1

/-- All successfully parsed fixtures across all fetches, in discovery
order (no dedupe). -/
def parsedFixtures (pages : List (Option (List (Option RawMatch)))) :
    List RawMatch :=
  ((pages.map (·.getD [])).flatten).filterMap id

/-! ## Title construction
(`GoogleCalendarManager.add_event_from_json`, add_to_calendar.py lines
142 and 159–169), restricted to scraper-produced dicts: all eight keys
are present, so the key-membership tests `'home_team' in event_data`,
`'away_team' in event_data` and `'competition' in event_data` are all
true, and the base `event_data.get('competition', 'Football Match')` is
always overwritten. -/

/-- Title built by `add_event_from_json` for a scraper-produced match:
`f"{away_team} vs {home_team}"` (away first, the deliberate RTL
ordering fix), then `" - {competition}"`, then the not-final marker
prefixed when the field is a non-empty (truthy) string.  A `None` team
renders as the string `"None"` in the f-string. -/
def add_event_title (m : RawMatch) : String :=
  let t := pyOptStr m.away_team ++ " vs " ++ pyOptStr m.home_team ++
    " - " ++ m.competition
  if m.not_final_time ≠ "" then m.not_final_time ++ " " ++ t else t

/-! ## Tentative-time marker extraction (`scaper.parse_match_div`,
lines 112–120) -/

/-- The Hebrew token meaning "not final". -/
def notFinalToken : List Char := "לא סופי".toList

/-- Whether the first list is a leading segment of the second. -/
def listStartsWith : List Char → List Char → Bool
  | [], _ => true
  | _ :: _, [] => false
  | a :: as, b :: bs => a == b && listStartsWith as bs

/-- Embedding of Python's substring test `needle in hay`. -/
def listContainsSub (needle : List Char) : List Char → Bool
  | [] => needle.isEmpty
  | c :: rest => listStartsWith needle (c :: rest) || listContainsSub needle rest

/-- Characters strictly before the first `')'`, and the rest after it;
`none` when there is no `')'`. -/
def splitAtRParen : List Char → Option (List Char × List Char)
  | [] => none
  | c :: rest =>
    if c = ')' then some ([], rest)
    else
      match splitAtRParen rest with
      | some (seg, after) => some (c :: seg, after)
      | none => none

/-- Embedding of `re.search(r'\([^)]*לא סופי[^)]*\)', text)`: the
leftmost position where a literal `'('` is followed (with no
intervening `')'`) by the token and then the first `')'`; the returned
characters are the whole match `group(0)`. -/
def searchNotFinalBracket : List Char → Option (List Char)
  | [] => none
  | c :: rest =>
    if c = '(' then
      match splitAtRParen rest with
      | some (seg, _) =>
        if listContainsSub notFinalToken seg then some ('(' :: (seg ++ [')']))
        else searchNotFinalBracket rest
      | none => searchNotFinalBracket rest
    else searchNotFinalBracket rest

/-- Lines 113–120 of `parse_match_div`: `not_final_indicator` starts as
`""`; when the date text contains the token, the bracket regex is
searched and the indicator is set only if a bracket match was found. -/
def parse_not_final_indicator (dateText : String) : String :=
  if listContainsSub notFinalToken dateText.toList ||
      listContainsSub (notFinalToken ++ ['(']) dateText.toList then
    match searchNotFinalBracket dateText.toList with
    | some g => String.mk g
    | none => ""
  else ""

/-! ## Time conversion (`scaper.convert_utc_to_israel_time`, lines 18–39)

The function receives ONLY the time string; the date used for the pytz
conversion is `datetime.now().date()` (the "dummy date"), embedded here
as an explicit `today` parameter.  The Asia/Jerusalem zone rules
(post-2013) are: IDT (UTC+3) from the Friday before the last Sunday of
March to the last Sunday of October, IST (UTC+2) otherwise; embedded at
day granularity (the 02:00 transition hour is irrelevant to the claims,
which use mid-month dates). -/

structure PyDate where
  year : Nat
  month : Nat
  day : Nat
deriving DecidableEq, Repr

/-- Sakamoto's day-of-week algorithm, 0 = Sunday. -/
def dayOfWeek (y m d : Nat) : Nat :=
  let t : List Nat := [0, 3, 2, 5, 0, 3, 5, 1, 4, 6, 2, 4]
  let y' := if m < 3 then y - 1 else y
  (y' + y' / 4 - y' / 100 + y' / 400 + t.getD (m - 1) 0 + d) % 7

/-- Day of month of the last Sunday of a 31-day month. -/
def lastSundayDay (y m : Nat) : Nat := 31 - dayOfWeek y m 31

/-- Month*100+day encoding for within-year date comparison. -/
def mdVal (m d : Nat) : Nat := m * 100 + d

/-- Whether Israel Daylight Time (UTC+3) is in force on a given date:
from the Friday before the last Sunday of March up to (excluding) the
last Sunday of October. -/
def israelIsDst (dt : PyDate) : Bool :=
  mdVal 3 (lastSundayDay dt.year 3 - 2) ≤ mdVal dt.month dt.day &&
  mdVal dt.month dt.day < mdVal 10 (lastSundayDay dt.year 10)

/-- UTC offset (hours) of Asia/Jerusalem on a given date. -/
def israelUtcOffsetHours (dt : PyDate) : Nat :=
  if israelIsDst dt then 3 else 2

/-- Digits of a 1- or 2-character numeric field, as `strptime` accepts
for `%H` and `%M`. -/
def parseField (l : List Char) : Option Nat :=
  match l with
  | [c] => if c.isDigit then some (c.toNat - 48) else none
  | [c, c'] =>
    if c.isDigit && c'.isDigit then some ((c.toNat - 48) * 10 + (c'.toNat - 48))
    else none
  | _ => none

/-- Split a char list at each `':'`. -/
def splitOnColon : List Char → List (List Char)
  | [] => [[]]
  | c :: rest =>
    match splitOnColon rest with
    | [] => []
    | g :: gs => if c = ':' then [] :: g :: gs else (c :: g) :: gs

/-- Embedding of `datetime.strptime(time_str, "%H:%M").time()`: exactly
one colon, 1–2 digit fields, hour below 24, minute below 60; `none`
when `strptime` raises. -/
def strptimeHM (s : String) : Option (Nat × Nat) :=
  match splitOnColon s.toList with
  | [hs, ms] =>
    match parseField hs, parseField ms with
    | some h, some m => if h ≤ 23 && m ≤ 59 then some (h, m) else none
    | _, _ => none
  | _ => none

/-- Zero-padded two-digit rendering, as `strftime("%H:%M")` produces. -/
def two (n : Nat) : String :=
  if n < 10 then "0" ++ toString n else toString n

/-- Embedding of `convert_utc_to_israel_time`: the UTC time of day is
shifted by the Asia/Jerusalem offset in force on `today`
(`datetime.now().date()`, the dummy date), wrapping modulo 24 because
only `%H:%M` is formatted; on a parse error the original string is
returned (`except` branch). -/
def convert_utc_to_israel_time (today : PyDate) (time_str : String) : String :=
  match strptimeHM time_str with
  | none => time_str
  | some (h, m) => two ((h + israelUtcOffsetHours today) % 24) ++ ":" ++ two m

/-! ## Event-creation parse path
(`GoogleCalendarManager.add_event_from_json`, add_to_calendar.py lines
123–169).  Before the title is built, the function parses the day with
`int()`, resolves the month, infers the year, parses the time with
`map(int, time_str.split(':'))` and constructs
`datetime(year, month, day, hour, minute)`; any failure raises, is
caught at line 200 and returns `None` — a skip with no insert call and
no title ever built.  These steps are embedded below so that the skip
path is distinguished from title construction. -/

/-- Digit run parsed to a number (`none` when empty or non-digits). -/
def digitsToNat (l : List Char) : Option Nat :=
  if l ≠ [] ∧ l.all Char.isDigit then
    some (l.foldl (fun a c => a * 10 + (c.toNat - 48)) 0)
  else none

/-- Embedding of Python `int(s)` on the scraped (stripped) strings:
optional sign then digits.  A parseable negative value is folded into
`none` here because `datetime` always rejects the resulting negative
day/hour/minute, giving the same observable skip. -/
def pyIntParse (l : List Char) : Option Nat :=
  match l with
  | '+' :: ds => digitsToNat ds
  | '-' :: _ => none
  | ds => digitsToNat ds

/-- The `month_map` dict (lines 131–136): Hebrew abbreviations with and
without the trailing apostrophe. -/
def month_map : List (String × Nat) :=
  [("ינו", 1), ("פבר", 2), ("מרץ", 3), ("אפר", 4), ("מאי", 5), ("יונ", 6),
   ("יול", 7), ("אוג", 8), ("ספט", 9), ("אוק", 10), ("נוב", 11), ("דצמ", 12),
   ("ינו'", 1), ("פבר'", 2), ("מרץ'", 3), ("אפר'", 4), ("מאי'", 5), ("יונ'", 6),
   ("יול'", 7), ("אוג'", 8), ("ספט'", 9), ("אוק'", 10), ("נוב'", 11), ("דצמ'", 12)]

/-- Embedding of `month_map.get(month_hebrew, 1)`. -/
def month_map_lookup (s : String) : Nat :=
  ((month_map.find? (fun e => e.1 == s)).map (·.2)).getD 1

/-- Year inference (line 150): current year when the month has not
passed, else next year. -/
def inferYear (currentYear currentMonth month : Nat) : Nat :=
  if month ≥ currentMonth then currentYear else currentYear + 1

/-- Embedding of `hour, minute = map(int, time_str.split(':'))`: exactly
two colon-separated fields, each parsed by `int` (a different parser
from the scraper's `strptime`; for example `"25:00"` parses here and is
rejected only by the `datetime` constructor). -/
def parseTimeSplit (s : String) : Option (Nat × Nat) :=
  match splitOnColon s.toList with
  | [hs, ms] =>
    match pyIntParse hs, pyIntParse ms with
    | some h, some mi => some (h, mi)
    | _, _ => none
  | _ => none

/-- Gregorian leap year, as `datetime` validates. -/
def isLeap (y : Nat) : Bool :=
  (y % 4 == 0 && y % 100 != 0) || y % 400 == 0

/-- Days in a month, as `datetime` validates (month is always 1–12 here,
coming from `month_map_lookup`). -/
def daysInMonth (y m : Nat) : Nat :=
  if m = 2 then (if isLeap y then 29 else 28)
  else if m = 4 ∨ m = 6 ∨ m = 9 ∨ m = 11 then 30
  else 31

/-- Embedding of `add_event_from_json` (lines 139–169) up to the event
title handed to `events().insert`: `none` is the except path — a parse
or `datetime` failure before title construction, caught at line 200 and
returned as `None` with no event created (the skip signal); `some t`
means execution reaches the insert call with an event body whose
`summary` is `t`. -/
def add_event_from_json_title (currentYear currentMonth : Nat) (m : RawMatch) :
    Option String :=
  match pyIntParse m.date_day.toList, parseTimeSplit m.time with
  | some day, some (hour, minute) =>
    let month := month_map_lookup m.date_month
    let year := inferYear currentYear currentMonth month
    if 1 ≤ day ∧ day ≤ daysInMonth year month ∧ hour ≤ 23 ∧ minute ≤ 59 then
      some (add_event_title m)
    else none
  | _, _ => none

/-! ## Calendar backend model and remote events

`RemoteEvent` embeds the event dicts read from the Calendar Backend;
fields are accessed in the code via `event.get('summary', '')`,
`event.get('location', '')` etc., embedded as total string fields
(`startTime`/`endTime`/`reminders` stand for the `'start'`/`'end'`/
`'reminders'` values, which the code only passes through unchanged). -/

structure RemoteEvent where
  id : String
  summary : String
  location : String
  description : String
  startTime : String
  endTime : String
  reminders : String
deriving DecidableEq, Repr

/-- Abstract behaviour of the Calendar Backend for one sync run:
`listResult = none` means `events().list()` raised (backend
unreachable); `deleteOk e = false` means `events().delete()` raised for
that event; `insertResult m = none` means `events().insert()` raised or
returned no id. -/
structure Backend where
  listResult : Option (List RemoteEvent)
  deleteOk : String → Bool
  insertResult : RawMatch → Option String

/-- A call attempted against the Calendar Backend. -/
inductive BackendCall
  | list
  | delete (eventId : String)
  | insert (m : RawMatch)
deriving DecidableEq, Repr

/-- Filter in `get_existing_maccabi_events` (auto_sync.py lines 77–83). -/
def isMaccabiSummary (s : String) : Bool :=
  listContainsSub "מכבי".toList s.toList ||
  listContainsSub "vs".toList s.toList ||
  listContainsSub "ליגה".toList s.toList ||
  listContainsSub "קונפרנס".toList s.toList

/-- Embedding of `get_existing_maccabi_events` (lines 71–88): on a
listing error the `except` returns `[]`; otherwise the Maccabi-looking
events are kept. -/
def get_existing_maccabi_events (b : Backend) : List RemoteEvent :=
  match b.listResult with
  | none => []
  | some events => events.filter (fun e => isMaccabiSummary e.summary)

/-! ## Sync Controller (`auto_sync.sync_calendar`, lines 104–181) -/

/-- Persisted sync state (`sync_state.json`). -/
structure SyncState where
  last_hash : Option String
  last_sync : Option String
  event_ids : List (String × String)
  last_match_count : Option Nat
deriving DecidableEq, Repr

/-- Outcome of one run of `sync_calendar`. -/
inductive SyncOutcome
  | noMatches
  | unchanged
  | completed (deleted added failed : Nat)
deriving DecidableEq, Repr

/-- Embedding of `sync_calendar` from the point where the match list has
been scraped: the returned triple is the state as persisted at the end
of the run, the outcome, and the trace of Calendar Backend calls
attempted.  The `GoogleCalendarManager` is only constructed after the
fingerprint comparison, so the unchanged path performs no backend calls
at all.  After the delete and insert loops the state update and
`save_state` are unconditional — per-operation failures are swallowed
(`except` → logged) and still lead to persisting the new hash. -/
def sync_calendar (state : SyncState) (ms : List RawMatch) (b : Backend)
    (now : String) : SyncState × SyncOutcome × List BackendCall :=
  if ms = [] then (state, .noMatches, [])
  else
    let current_hash := calculate_matches_hash ms
    if state.last_hash = some current_hash then (state, .unchanged, [])
    else
      let existing := get_existing_maccabi_events b
      let deleted := (existing.filter (fun e => b.deleteOk e.id)).length
      let added := (ms.filter (fun m => (b.insertResult m).isSome)).length
      let failed := (ms.filter (fun m => (b.insertResult m).isNone)).length
      let new_event_ids := ms.filterMap
        (fun m => (b.insertResult m).map (fun i => (match_key_str m, i)))
      let state' : SyncState :=
        { last_hash := some current_hash
          last_sync := some now
          event_ids := new_event_ids
          last_match_count := some ms.length }
      (state', .completed deleted added failed,
        .list :: existing.map (fun e => .delete e.id) ++ ms.map (fun m => .insert m))

/-! ## Targeted update
(`GoogleCalendarManager.find_and_update_maccabi_events`,
add_to_calendar.py lines 297–358) -/

/-- Base title `f"{away_team} vs {home_team}"` (line 326). -/
def match_title_base (m : RawMatch) : String :=
  pyOptStr m.away_team ++ " vs " ++ pyOptStr m.home_team

/-- Inner-loop condition (lines 333–335): the event title contains the
base title, does not already contain the not-final token, and the
match's marker is truthy. -/
def eventNeedsUpdate (m : RawMatch) (e : RemoteEvent) : Bool :=
  listContainsSub (match_title_base m).toList e.summary.toList &&
  !(listContainsSub notFinalToken e.summary.toList) &&
  m.not_final_time ≠ ""

/-- Body sent to `events().update()` (lines 341–348): new prefixed
title, every other field copied from the event unchanged. -/
def updatedEventBody (m : RawMatch) (e : RemoteEvent) : RemoteEvent :=
  { e with summary := m.not_final_time ++ " " ++ e.summary }

/-- Per-fixture step of `find_and_update_maccabi_events`: fixtures
without a truthy marker are skipped (line 321); otherwise the event
list is scanned in order and the first event satisfying the condition
is updated, after which `break` stops the scan. -/
def updateForMatch (m : RawMatch) (events : List RemoteEvent) :
    Option (String × RemoteEvent) :=
  if m.not_final_time = "" then none
  else (events.find? (eventNeedsUpdate m)).map (fun e => (e.id, updatedEventBody m e))

/-- Embedding of `find_and_update_maccabi_events`: the update requests
issued, one per fixture at most, against the event list as fetched once
at the start (it is not refreshed between fixtures). -/
def find_and_update_maccabi_events (ms : List RawMatch)
    (events : List RemoteEvent) : List (String × RemoteEvent) :=
  ms.filterMap (fun m => updateForMatch m events)

/-! ## State persistence (`auto_sync.save_state`, lines 47–53)

`save_state` opens `sync_state.json` with mode `"w"` — which truncates
the file in place — and then `json.dump`s into it.  The file-system
interaction is embedded as a trace of operations over a mapping from
paths to contents, so interrupted executions are the proper prefixes of
the trace. -/

inductive FileOp
  | truncate (path : String)
  | writeData (path : String) (data : String)
deriving DecidableEq, Repr

def STATE_FILE : String := "sync_state.json"

/-- File operations performed by `save_state(state)`, in order:
`open(STATE_FILE, "w")` truncates, `json.dump` writes the serialized
state.  No temporary file and no rename appear anywhere. -/
def save_state_ops (content : String) : List FileOp :=
  [.truncate STATE_FILE, .writeData STATE_FILE content]

/-- Path an operation touches. -/
def FileOp.path : FileOp → String
  | .truncate p => p
  | .writeData p _ => p

/-- Read a file in the modeled file system. -/
def readFile (fs : List (String × String)) (p : String) : Option String :=
  (fs.find? (fun e => e.1 == p)).map (·.2)

/-- Write/replace a file in the modeled file system. -/
def setFile (fs : List (String × String)) (p v : String) :
    List (String × String) :=
  (p, v) :: fs.filter (fun e => e.1 ≠ p)

/-- Effect of one file operation. -/
def applyOp (fs : List (String × String)) : FileOp → List (String × String)
  | .truncate p => setFile fs p ""
  | .writeData p d => setFile fs p ((readFile fs p).getD "" ++ d)

/-- Run a trace of file operations. -/
def runOps (fs : List (String × String)) (ops : List FileOp) :
    List (String × String) :=
  ops.foldl applyOp fs

/-! ## Derived predicates and concrete sample data -/

/-- Pairwise equality of every tracked field at the same sorted
positions, the comparison the fingerprint claim quantifies over. -/
def trackedFieldsEqAtSorted (l₁ l₂ : List RawMatch) : Prop :=
  (sortedMatches l₁).length = (sortedMatches l₂).length ∧
  ∀ p ∈ (sortedMatches l₁).zip (sortedMatches l₂),
    p.1.date_day = p.2.date_day ∧ p.1.date_month = p.2.date_month ∧
    p.1.time = p.2.time ∧ p.1.home_team = p.2.home_team ∧
    p.1.away_team = p.2.away_team ∧ p.1.venue = p.2.venue ∧
    p.1.competition = p.2.competition ∧ p.1.not_final_time = p.2.not_final_time

instance (l₁ l₂ : List RawMatch) : Decidable (trackedFieldsEqAtSorted l₁ l₂) :=
  inferInstanceAs (Decidable (_ ∧ _))

/-- Recursion form of the dedupe fold in `scrape_haifa_matches`, with an
explicit seen-key list, used to reason about the fold. -/
def dedupeFrom (seen : List String) : List RawMatch → List RawMatch
  | [] => []
  | m :: rest =>
    if seen.contains (match_key_str m) then dedupeFrom seen rest
    else m :: dedupeFrom (seen ++ [match_key_str m]) rest

/-- Sample fixture (the scraper example from add_to_calendar.py). -/
def sampleMatch : RawMatch :=
  ⟨"7", "אוג'", "22:00", "ליגה", "סמי עופר", some "מכבי", some "הפועל", ""⟩

/-- Two fixtures sharing the `(month, day, time)` sort key but differing
in other tracked fields. -/
def tieA : RawMatch := ⟨"1", "M", "T", "C1", "V1", some "H1", some "W1", ""⟩

def tieB : RawMatch := ⟨"1", "M", "T", "C2", "V2", some "H2", some "W2", ""⟩

/-- Two fixtures with different tracked fields (venue, competition) whose
concatenated field strings coincide because `-` also occurs inside a
field: both yield `"1-M-T-H-A-V-C-X-"`. -/
def collA : RawMatch := ⟨"1", "M", "T", "C-X", "V", some "H", some "A", ""⟩

def collB : RawMatch := ⟨"1", "M", "T", "X", "V-C", some "H", some "A", ""⟩

/-- Two fixtures with distinct sort keys. -/
def keyedA : RawMatch := ⟨"1", "A", "10:00", "C", "V", some "H", some "W", ""⟩

def keyedB : RawMatch := ⟨"2", "B", "11:00", "C", "V", some "H", some "W", ""⟩

/-- Backend on which every operation raises (unreachable backend). -/
def failBackend : Backend := ⟨none, fun _ => false, fun _ => none⟩

/-- Persisted state whose fingerprint already matches `[sampleMatch]`. -/
def stateUnchangedW : SyncState :=
  ⟨some (calculate_matches_hash [sampleMatch]), none, [], none⟩

/-- Concrete page sequence: a page with a malformed fragment, a failed
fetch, and a page whose first fixture duplicates a page-1 fixture. -/
def samplePages : List (Option (List (Option RawMatch))) :=
  [some [some keyedA, none, some keyedB], none,
   some [some keyedA, some sampleMatch]]

/-- Fixture with a tentative marker, for the targeted-update witness. -/
def tentativeMatch : RawMatch :=
  ⟨"7", "אוג'", "22:00", "ליגה", "סמי עופר", some "מכבי", some "הפועל", "(לא סופי)"⟩

/-- Remote events whose titles both contain the base title of
`tentativeMatch` and neither of which carries the not-final token. -/
def eventOne : RemoteEvent :=
  ⟨"id1", "הפועל vs מכבי - ליגה", "loc1", "desc1", "s1", "e1", "r1"⟩

def eventTwo : RemoteEvent :=
  ⟨"id2", "הפועל vs מכבי - גביע", "loc2", "desc2", "s2", "e2", "r2"⟩

end MHFC

namespace MHFC

/-! ## Theorems -/

/-- Helper: a permutation of two key-sorted lists with pairwise-distinct
sort keys is an equality. -/
theorem sorted_perm_nodup_keys_eq :
    ∀ {l₁ l₂ : List RawMatch}, l₁.Perm l₂ → l₁.Sorted matchLE → l₂.Sorted matchLE →
      (l₁.map sortKey).Nodup → l₁ = l₂ := by
  intro l₁
  induction l₁ with
  | nil => intro l₂ hp _ _ _; exact hp.nil_eq
  | cons a t ih =>
    intro l₂ hp h₁ h₂ hnd
    cases l₂ with
    | nil => exact absurd hp.symm.nil_eq (by simp)
    | cons b t₂ =>
      have hab : a = b := by
        have ha2 : a ∈ b :: t₂ := hp.subset (List.mem_cons_self a t)
        rcases List.mem_cons.mp ha2 with h | hat₂
        · exact h
        · have hba : matchLE b a := List.rel_of_sorted_cons h₂ a hat₂
          have hb1 : b ∈ a :: t := hp.symm.subset (List.mem_cons_self b t₂)
          rcases List.mem_cons.mp hb1 with h' | hbt
          · exact h'.symm
          · have hab' : matchLE a b := List.rel_of_sorted_cons h₁ b hbt
            have hk : sortKey a = sortKey b := le_antisymm hab' hba
            have hmem : sortKey b ∈ t.map sortKey := List.mem_map_of_mem sortKey hbt
            rw [← hk] at hmem
            exact absurd hmem (List.nodup_cons.mp (by simpa using hnd)).1
      subst hab
      have ht : t = t₂ := ih hp.cons_inv h₁.of_cons h₂.of_cons
        (List.nodup_cons.mp (by simpa using hnd)).2
      rw [ht]

/-- Helper: fingerprints agree across any permutation whose sort keys are
pairwise distinct. -/
theorem hash_perm_of_nodup_keys (l₁ l₂ : List RawMatch) (hp : l₁.Perm l₂)
    (hnd : (l₁.map sortKey).Nodup) :
    calculate_matches_hash l₁ = calculate_matches_hash l₂ := by
  have hperm : (sortedMatches l₁).Perm (sortedMatches l₂) :=
    (List.perm_insertionSort matchLE l₁).trans
      (hp.trans (List.perm_insertionSort matchLE l₂).symm)
  have hnd₁ : ((sortedMatches l₁).map sortKey).Nodup :=
    (((List.perm_insertionSort matchLE l₁).map sortKey).nodup_iff).mpr hnd
  have hs : sortedMatches l₁ = sortedMatches l₂ :=
    sorted_perm_nodup_keys_eq hperm (List.sorted_insertionSort matchLE l₁)
      (List.sorted_insertionSort matchLE l₂) hnd₁
  unfold calculate_matches_hash matchString
  rw [hs]

/-- Helper: two raw fixtures with all eight fields equal are equal. -/
theorem RawMatch.eq_of_fields {a b : RawMatch}
    (h1 : a.date_day = b.date_day) (h2 : a.date_month = b.date_month)
    (h3 : a.time = b.time) (h4 : a.home_team = b.home_team)
    (h5 : a.away_team = b.away_team) (h6 : a.venue = b.venue)
    (h7 : a.competition = b.competition) (h8 : a.not_final_time = b.not_final_time) :
    a = b := by
  cases a; cases b; simp_all

/-- Helper: lists of equal length with pairwise-equal zipped entries are equal. -/
theorem eq_of_zip_eq : ∀ (xs ys : List RawMatch), xs.length = ys.length →
    (∀ p ∈ xs.zip ys, p.1 = p.2) → xs = ys := by
  intro xs
  induction xs with
  | nil => intro ys hl _; cases ys with
    | nil => rfl
    | cons y yt => simp at hl
  | cons x xt ih =>
    intro ys hl h
    cases ys with
    | nil => simp at hl
    | cons y yt =>
      have hxy : x = y := h (x, y) (by simp)
      have ht : xt = yt := ih yt (by simpa using hl) (fun p hp => h p (by simp [hp]))
      rw [hxy, ht]

/-- C3 (counterexample): the fingerprint claim fails on the code in both
directions.  Swapping two fixtures that share the `(month, day, time)`
sort key is a permutation that changes the MD5 digest (Python's stable
sort keeps tied elements in input order, so the concatenated string
differs), and two lists with different tracked fields (venue `V` /
competition `C-X` versus venue `V-C` / competition `X`) produce the very
same digest because the `-` separator also occurs inside fields. -/
theorem fingerprint_claim_cex :
    ([tieA, tieB].Perm [tieB, tieA] ∧
      calculate_matches_hash [tieA, tieB] ≠ calculate_matches_hash [tieB, tieA]) ∧
    (calculate_matches_hash [collA] = calculate_matches_hash [collB] ∧
      ¬ trackedFieldsEqAtSorted [collA] [collB]) :=
  ⟨⟨by decide, by decide⟩, ⟨by decide, by decide⟩⟩

/-- C3 (amended): the Fingerprint Engine produces the same digest for any
permutation of a fixture list whose `(monthLabel, dayOfMonth, timeLabel)`
sort keys are pairwise distinct, and for any two fixture lists whose
tracked fields (day, month label, time, home team, away team, venue,
competition, tentative marker) are pairwise equal at the same sorted
positions.  (The converse direction of the original claim is refuted by
the counterexample: equal digests do not imply equal fields, and
permutations of tied-key fixtures can change the digest.) -/
theorem fingerprint_invariance_amended :
    (∀ l₁ l₂ : List RawMatch, l₁.Perm l₂ → (l₁.map sortKey).Nodup →
      calculate_matches_hash l₁ = calculate_matches_hash l₂) ∧
    (∀ l₁ l₂ : List RawMatch, trackedFieldsEqAtSorted l₁ l₂ →
      calculate_matches_hash l₁ = calculate_matches_hash l₂) := by
  constructor
  · exact hash_perm_of_nodup_keys
  · intro l₁ l₂ h
    have hs : sortedMatches l₁ = sortedMatches l₂ :=
      eq_of_zip_eq _ _ h.1 (fun p hp => by
        obtain ⟨h1, h2, h3, h4, h5, h6, h7, h8⟩ := h.2 p hp
        exact RawMatch.eq_of_fields h1 h2 h3 h4 h5 h6 h7 h8)
    unfold calculate_matches_hash matchString
    rw [hs]

/-- C3 (witness): the amended theorem applied to a concrete distinct-key
permutation and to a concrete pair with equal sorted fields. -/
theorem fingerprint_invariance_amended_witness :
    calculate_matches_hash [keyedA, keyedB] = calculate_matches_hash [keyedB, keyedA] ∧
    calculate_matches_hash [tieA, tieB] = calculate_matches_hash [tieA, tieB] :=
  ⟨fingerprint_invariance_amended.1 _ _ (by decide) (by decide),
   fingerprint_invariance_amended.2 _ _ (by decide)⟩

/-- C2: when the fingerprint of the freshly scraped non-empty match list
equals the persisted `last_hash`, `sync_calendar` returns before the
`GoogleCalendarManager` is even constructed: the state is untouched, the
outcome is UNCHANGED, and the backend-call trace is empty (no list, no
insert, no update, no delete). -/
theorem sync_unchanged_skips_backend (state : SyncState) (ms : List RawMatch)
    (b : Backend) (now : String) (hne : ms ≠ [])
    (hh : state.last_hash = some (calculate_matches_hash ms)) :
    sync_calendar state ms b now = (state, .unchanged, []) := by
  unfold sync_calendar
  simp [hne, hh]

/-- C2 (witness): concrete unchanged run against the unreachable backend. -/
theorem sync_unchanged_skips_backend_witness :
    sync_calendar stateUnchangedW [sampleMatch] failBackend "now" =
      (stateUnchangedW, .unchanged, []) :=
  sync_unchanged_skips_backend _ _ _ _ (by decide) rfl

/-- C1 (counterexample): scraping one fixture with a different persisted
hash against a backend where the listing raises and every insert raises
(so every backend operation attempted during reconciliation fails),
`sync_calendar` still replaces `last_hash` with the new fingerprint —
the state update after the reconciliation loop is unconditional. -/
theorem sync_hash_persisted_cex :
    failBackend.listResult = none ∧
    failBackend.insertResult sampleMatch = none ∧
    (sync_calendar ⟨some "oldhash", none, [], none⟩ [sampleMatch] failBackend
        "now").1.last_hash = some (calculate_matches_hash [sampleMatch]) ∧
    calculate_matches_hash [sampleMatch] ≠ "oldhash" :=
  ⟨rfl, rfl, by decide, by decide⟩

/-- C1 (amended): on every run where the scraped list is non-empty and
its fingerprint differs from the persisted `last_hash`, the state
persisted at the end of the run carries the NEW fingerprint regardless
of how the backend behaved — even when listing, every delete and every
insert all fail.  (Only an exception escaping the reconciliation code,
e.g. during `GoogleCalendarManager` construction, skips persistence;
all per-operation failures are caught inside the loops.)  The next run
therefore observes "unchanged" and does not retry. -/
theorem sync_hash_persisted_on_changed (state : SyncState) (ms : List RawMatch)
    (b : Backend) (now : String) (hne : ms ≠ [])
    (hh : state.last_hash ≠ some (calculate_matches_hash ms)) :
    (sync_calendar state ms b now).1.last_hash =
      some (calculate_matches_hash ms) := by
  unfold sync_calendar
  simp [hne, hh]

/-- C1 (witness): the amended theorem at the concrete failing backend. -/
theorem sync_hash_persisted_on_changed_witness :
    (sync_calendar ⟨some "oldhash", none, [], none⟩ [sampleMatch] failBackend
        "now").1.last_hash = some (calculate_matches_hash [sampleMatch]) :=
  sync_hash_persisted_on_changed _ _ _ _ (by decide) (by decide)

/-- Helper: unfolding `dedupeStep` when the key has been seen. -/
theorem dedupeStep_mem {acc : List RawMatch × List String} {m : RawMatch}
    (h : match_key_str m ∈ acc.2) : dedupeStep acc m = acc := by
  simp [dedupeStep, h]

/-- Helper: unfolding `dedupeStep` on a fresh key. -/
theorem dedupeStep_not_mem {acc : List RawMatch × List String} {m : RawMatch}
    (h : match_key_str m ∉ acc.2) :
    dedupeStep acc m = (acc.1 ++ [m], acc.2 ++ [match_key_str m]) := by
  simp [dedupeStep, h]

/-- Helper: unfolding `dedupeFrom` when the key has been seen. -/
theorem dedupeFrom_cons_mem {seen : List String} {m : RawMatch}
    {rest : List RawMatch} (h : match_key_str m ∈ seen) :
    dedupeFrom seen (m :: rest) = dedupeFrom seen rest := by
  simp [dedupeFrom, h]

/-- Helper: unfolding `dedupeFrom` on a fresh key. -/
theorem dedupeFrom_cons_not_mem {seen : List String} {m : RawMatch}
    {rest : List RawMatch} (h : match_key_str m ∉ seen) :
    dedupeFrom seen (m :: rest) = m :: dedupeFrom (seen ++ [match_key_str m]) rest := by
  simp [dedupeFrom, h]

/-- Helper: the inner page loop is the fold over the page's parsed fixtures. -/
theorem processPage_eq (divs : List (Option RawMatch)) :
    ∀ acc, processPage acc divs = (divs.filterMap id).foldl dedupeStep acc := by
  induction divs with
  | nil => intro acc; rfl
  | cons od rest ih =>
    intro acc
    cases od with
    | none => simpa [processPage] using ih acc
    | some m => simpa [processPage] using ih (dedupeStep acc m)

/-- Helper: the page loop of `scrape_haifa_matches` is the fold of
`dedupeStep` over all parsed fixtures in discovery order. -/
theorem scrape_pages_foldl (pages : List (Option (List (Option RawMatch)))) :
    ∀ acc : List RawMatch × List String,
    pages.foldl
      (fun acc page => match page with | none => acc | some divs => processPage acc divs)
      acc
      = (((pages.map (·.getD [])).flatten).filterMap id).foldl dedupeStep acc := by
  induction pages with
  | nil => intro acc; rfl
  | cons p rest ih =>
    intro acc
    cases p with
    | none => simpa using ih acc
    | some divs =>
      simp only [List.foldl_cons, List.map_cons, List.flatten_cons, Option.getD_some,
        List.filterMap_append, List.foldl_append]
      rw [processPage_eq, ih]

/-- Helper: the dedupe fold with any accumulator equals the explicit
first-occurrence recursion. -/
theorem foldl_dedupeStep_eq (l : List RawMatch) :
    ∀ (acc : List RawMatch) (seen : List String),
    (l.foldl dedupeStep (acc, seen)).1 = acc ++ dedupeFrom seen l := by
  induction l with
  | nil => intro acc seen; simp [dedupeFrom]
  | cons m rest ih =>
    intro acc seen
    by_cases h : match_key_str m ∈ seen
    · rw [List.foldl_cons, dedupeStep_mem h, dedupeFrom_cons_mem h, ih]
    · rw [List.foldl_cons, dedupeStep_not_mem h, dedupeFrom_cons_not_mem h, ih,
        List.append_assoc]
      rfl

/-- Helper: `scrape_haifa_matches` is the first-occurrence dedup of the
parsed fixtures. -/
theorem scrape_eq_dedupeFrom (pages : List (Option (List (Option RawMatch)))) :
    scrape_haifa_matches pages = dedupeFrom [] (parsedFixtures pages) := by
  unfold scrape_haifa_matches parsedFixtures
  rw [scrape_pages_foldl, foldl_dedupeStep_eq]
  simp

/-- Helper: dedup output keys are distinct and avoid the seen set. -/
theorem dedupeFrom_keys (l : List RawMatch) :
    ∀ seen : List String,
    ((dedupeFrom seen l).map match_key_str).Nodup ∧
    (∀ k ∈ (dedupeFrom seen l).map match_key_str, k ∉ seen) := by
  induction l with
  | nil => intro seen; simp [dedupeFrom]
  | cons m rest ih =>
    intro seen
    by_cases h : match_key_str m ∈ seen
    · rw [dedupeFrom_cons_mem h]
      exact ih seen
    · have ih' := ih (seen ++ [match_key_str m])
      rw [dedupeFrom_cons_not_mem h]
      refine ⟨?_, ?_⟩
      · simp only [List.map_cons, List.nodup_cons]
        refine ⟨fun hmem => ?_, ih'.1⟩
        have := ih'.2 _ hmem
        simp at this
      · intro k hk
        simp only [List.map_cons, List.mem_cons] at hk
        rcases hk with rfl | hk
        · exact h
        · intro hkseen
          exact (ih'.2 _ hk) (by simp [hkseen])

/-- Helper: dedup output is a sublist of the input (discovery order kept). -/
theorem dedupeFrom_sublist (l : List RawMatch) :
    ∀ seen : List String, (dedupeFrom seen l).Sublist l := by
  induction l with
  | nil => intro seen; simp [dedupeFrom]
  | cons m rest ih =>
    intro seen
    by_cases h : match_key_str m ∈ seen
    · rw [dedupeFrom_cons_mem h]
      exact (ih seen).cons m
    · rw [dedupeFrom_cons_not_mem h]
      exact (ih _).cons₂ m

/-- Helper: dedup does not change the first fixture found for a fresh key. -/
theorem dedupeFrom_find? (l : List RawMatch) :
    ∀ (seen : List String) (k : String), k ∉ seen →
    (dedupeFrom seen l).find? (fun x => match_key_str x == k) =
      l.find? (fun x => match_key_str x == k) := by
  induction l with
  | nil => intro seen k _; rfl
  | cons m rest ih =>
    intro seen k hk
    by_cases hm : match_key_str m = k
    · subst hm
      rw [dedupeFrom_cons_not_mem hk]
      rw [List.find?_cons_of_pos _ (by simp), List.find?_cons_of_pos _ (by simp)]
    · have hbeq : (match_key_str m == k) = false := by
        simpa using hm
      by_cases h : match_key_str m ∈ seen
      · rw [dedupeFrom_cons_mem h, ih seen k hk,
          List.find?_cons_of_neg _ (by simp [hbeq])]
      · rw [dedupeFrom_cons_not_mem h,
          List.find?_cons_of_neg _ (by simp [hbeq]),
          List.find?_cons_of_neg _ (by simp [hbeq])]
        exact ih _ k (by simp [hk, Ne.symm hm])

/-- Helper: in a list with distinct keys, `find?` on an element's key
returns that element. -/
theorem find?_key_of_nodup (l : List RawMatch) :
    (l.map match_key_str).Nodup →
    ∀ m ∈ l, l.find? (fun x => match_key_str x == match_key_str m) = some m := by
  induction l with
  | nil => intro _ m hm; simp at hm
  | cons x rest ih =>
    intro hnd m hm
    rcases List.mem_cons.mp hm with rfl | hmr
    · exact List.find?_cons_of_pos _ (by simp)
    · have hx : match_key_str x ≠ match_key_str m := by
        intro he
        have hmem : match_key_str m ∈ rest.map match_key_str :=
          List.mem_map_of_mem _ hmr
        rw [← he] at hmem
        exact (List.nodup_cons.mp (by simpa using hnd)).1 hmem
      rw [List.find?_cons_of_neg _ (by simp [hx])]
      exact ih (List.nodup_cons.mp (by simpa using hnd)).2 m hmr

/-- Helper: membership of keys in the dedup output. -/
theorem dedupeFrom_keys_mem (l : List RawMatch) :
    ∀ (seen : List String) (k : String),
    k ∈ (dedupeFrom seen l).map match_key_str ↔
      k ∈ l.map match_key_str ∧ k ∉ seen := by
  induction l with
  | nil => intro seen k; simp [dedupeFrom]
  | cons m rest ih =>
    intro seen k
    by_cases h : seen.contains (match_key_str m) = true
    · have hmem : match_key_str m ∈ seen := by simpa using h
      simp only [dedupeFrom, if_pos h, List.map_cons, List.mem_cons]
      rw [ih]
      constructor
      · rintro ⟨hk, hks⟩
        exact ⟨Or.inr hk, hks⟩
      · rintro ⟨hk | hk, hks⟩
        · subst hk; exact absurd hmem hks
        · exact ⟨hk, hks⟩
    · have hmem : match_key_str m ∉ seen := by simpa using h
      simp only [dedupeFrom, if_neg h, List.map_cons, List.mem_cons]
      rw [ih]
      constructor
      · rintro (rfl | ⟨hk, hks⟩)
        · exact ⟨Or.inl rfl, hmem⟩
        · refine ⟨Or.inr hk, fun hs => hks (by simp [hs])⟩
      · rintro ⟨hk | hk, hks⟩
        · exact Or.inl hk
        · by_cases hkm : k = match_key_str m
          · exact Or.inl hkm
          · exact Or.inr ⟨hk, by simp [hks, hkm]⟩

/-- Helper: dedup output length is the number of distinct keys. -/
theorem dedupeFrom_length (l : List RawMatch) :
    (dedupeFrom [] l).length = (l.map match_key_str).dedup.length := by
  have h1 : ((dedupeFrom [] l).map match_key_str).Nodup := (dedupeFrom_keys l []).1
  have h2 : (l.map match_key_str).dedup.Nodup := List.nodup_dedup _
  have hperm : ((dedupeFrom [] l).map match_key_str).Perm (l.map match_key_str).dedup := by
    rw [List.perm_ext_iff_of_nodup h1 h2]
    intro k
    rw [List.mem_dedup, dedupeFrom_keys_mem]
    simp
  simpa using hperm.length_eq

/-- C4: over any sequence of fetched pages, the Scrape Orchestrator's
output has pairwise-distinct dedupe keys; it is a sublist of the parsed
fixtures in discovery order; each retained fixture is the FIRST parsed
fixture carrying its key; and the output length equals the number of
distinct keys among all successfully parsed fixtures across all fetches. -/
theorem scrape_dedup_correct (pages : List (Option (List (Option RawMatch)))) :
    ((scrape_haifa_matches pages).map match_key_str).Nodup ∧
    (scrape_haifa_matches pages).Sublist (parsedFixtures pages) ∧
    (∀ m ∈ scrape_haifa_matches pages,
      (parsedFixtures pages).find? (fun x => match_key_str x == match_key_str m)
        = some m) ∧
    (scrape_haifa_matches pages).length =
      ((parsedFixtures pages).map match_key_str).dedup.length := by
  rw [scrape_eq_dedupeFrom]
  refine ⟨(dedupeFrom_keys _ _).1, dedupeFrom_sublist _ _, ?_, dedupeFrom_length _⟩
  intro m hm
  rw [← dedupeFrom_find? (parsedFixtures pages) [] (match_key_str m) (by simp)]
  exact find?_key_of_nodup _ (dedupeFrom_keys _ _).1 m hm

/-- C4 (witness): the theorem at a concrete page sequence containing a
failed fetch, a malformed fragment, and a cross-page duplicate. -/
theorem scrape_dedup_correct_witness :
    ((scrape_haifa_matches samplePages).map match_key_str).Nodup ∧
    (scrape_haifa_matches samplePages).Sublist (parsedFixtures samplePages) ∧
    (∀ m ∈ scrape_haifa_matches samplePages,
      (parsedFixtures samplePages).find?
        (fun x => match_key_str x == match_key_str m) = some m) ∧
    (scrape_haifa_matches samplePages).length =
      ((parsedFixtures samplePages).map match_key_str).dedup.length :=
  scrape_dedup_correct samplePages

/-- C5: for a fixture with non-null home team `A`, non-null away team
`B`, competition `C` and empty tentative marker, the constructed event
title is exactly `B ++ " vs " ++ A ++ " - " ++ C` (away listed first);
with tentative marker `"(TBD)"` the marker plus one space is prefixed. -/
theorem title_away_first (A B C day month t v : String) :
    add_event_title ⟨day, month, t, C, v, some A, some B, ""⟩ =
      B ++ " vs " ++ A ++ " - " ++ C ∧
    add_event_title ⟨day, month, t, C, v, some A, some B, "(TBD)"⟩ =
      "(TBD)" ++ " " ++ (B ++ " vs " ++ A ++ " - " ++ C) := by
  constructor
  · simp [add_event_title, pyOptStr]
  · simp [add_event_title, pyOptStr]

/-- C5 (witness): the theorem at concrete team and competition names,
folding the string literals. -/
theorem title_away_first_witness :
    add_event_title ⟨"1", "M", "20:00", "C", "V", some "A", some "B", ""⟩ =
      "B vs A - C" ∧
    add_event_title ⟨"1", "M", "20:00", "C", "V", some "A", some "B", "(TBD)"⟩ =
      "(TBD) B vs A - C" := by
  have h := title_away_first "A" "B" "C" "1" "M" "20:00" "V"
  exact ⟨by rw [h.1]; rfl, by rw [h.2]; rfl⟩

/-- Helper: the title-construction fragment renders both null teams as
the string `"None"`. -/
theorem add_event_title_of_none_teams (m : RawMatch) (h1 : m.home_team = none)
    (h2 : m.away_team = none) (h3 : m.not_final_time = "") :
    add_event_title m = "None vs None - " ++ m.competition := by
  obtain ⟨d, mo, t, c, v, ht, aw, nf⟩ := m
  dsimp at h1 h2 h3
  subst h1; subst h2; subst h3
  unfold add_event_title
  simp only [pyOptStr]
  rw [if_neg (by simp)]
  rw [show ("None vs None - " : String) = "None" ++ (" vs " ++ ("None" ++ " - ")) from rfl]
  simp [String.append_assoc]

/-- C6 (counterexample): a fixture whose `homeTeam`/`awayTeam` are both
absent (`None`, as the parser sets them on layout mismatch) but whose
day `"7"`, month `"אוג'"` and time `"19:00"` are fully parseable (run
date May 2026): `add_event_from_json` does NOT emit the skip signal —
execution passes the `int`/`split`/`datetime` steps and reaches the
insert call — and the constructed title is `"None vs None - C"` (built
from the rendered null team names via the `'home_team' in event_data`
key test), not the competition name `"C"`. -/
theorem title_none_teams_cex :
    add_event_from_json_title 2026 5 ⟨"7", "אוג'", "19:00", "C", "V", none, none, ""⟩
      = some "None vs None - C" ∧
    add_event_from_json_title 2026 5 ⟨"7", "אוג'", "19:00", "C", "V", none, none, ""⟩
      ≠ none ∧
    add_event_from_json_title 2026 5 ⟨"7", "אוג'", "19:00", "C", "V", none, none, ""⟩
      ≠ some "C" ∧
    ("None vs None - C" : String) =
      pyOptStr none ++ " vs " ++ pyOptStr none ++ " - " ++ "C" :=
  ⟨by decide, by decide, by decide, by decide⟩

/-- C6 (amended): for every fixture whose team fields are both null and
whose tentative marker is empty, WHEN the day parses by `int`, the time
parses by `split(':')`/`int`, and the resulting values form a valid
`datetime` for the inferred year and month, normalization neither skips
nor falls back to the competition name: it reaches the insert call with
the title `"None vs None - <competition>"` built from the rendered null
team names.  (The skip signal occurs exactly on the complementary
parse/`datetime` failures, before any title is built.) -/
theorem title_none_teams_amended (cy cm : Nat) (m : RawMatch)
    (day hour minute : Nat)
    (h1 : m.home_team = none) (h2 : m.away_team = none)
    (h3 : m.not_final_time = "")
    (hd : pyIntParse m.date_day.toList = some day)
    (ht : parseTimeSplit m.time = some (hour, minute))
    (hv : 1 ≤ day ∧
      day ≤ daysInMonth (inferYear cy cm (month_map_lookup m.date_month))
        (month_map_lookup m.date_month) ∧
      hour ≤ 23 ∧ minute ≤ 59) :
    add_event_from_json_title cy cm m =
      some ("None vs None - " ++ m.competition) := by
  unfold add_event_from_json_title
  rw [hd, ht]
  dsimp only
  rw [if_pos hv, add_event_title_of_none_teams m h1 h2 h3]

/-- C6 (witness): the amended theorem at a concrete parseable fixture. -/
theorem title_none_teams_amended_witness :
    add_event_from_json_title 2026 5 ⟨"7", "אוג'", "19:00", "גביע", "X", none, none, ""⟩
      = some ("None vs None - " ++ "גביע") :=
  title_none_teams_amended 2026 5 _ 7 19 0 rfl rfl rfl (by decide) (by decide)
    (by decide)

/-- C7 (counterexample): a date fragment containing the not-final token
with no parenthesized annotation anywhere: the bracket search fails and
the recorded marker is the EMPTY string — the matched token text
(`"לא סופי"`, non-empty when trimmed) is discarded, contradicting the
claim. -/
theorem marker_no_bracket_cex :
    listContainsSub notFinalToken "15 ינו לא סופי".toList = true ∧
    searchNotFinalBracket "15 ינו לא סופי".toList = none ∧
    parse_not_final_indicator "15 ינו לא סופי" = "" ∧
    ("" : String) ≠ "לא סופי" :=
  ⟨by decide, by decide, by decide, by decide⟩

/-- C7 (amended): for every date fragment whose text contains the
not-final token but where the bracket pattern finds no parenthesized
annotation, the Field Parser records the EMPTY marker — the matched
token text is discarded, not recorded trimmed. -/
theorem marker_discarded_amended (s : String)
    (htok : listContainsSub notFinalToken s.toList = true)
    (hnb : searchNotFinalBracket s.toList = none) :
    parse_not_final_indicator s = "" := by
  unfold parse_not_final_indicator
  rw [if_pos (by simp; exact Or.inl htok), hnb]

/-- C7 (witness): the amended theorem at the concrete bracket-free text. -/
theorem marker_discarded_amended_witness :
    parse_not_final_indicator "22 ספט לא סופי" = "" :=
  marker_discarded_amended _ (by decide) (by decide)

/-- C8 (counterexample): a run executed on 2026-07-15 (IDT, UTC+3)
converts the scraped "19:00" to "22:00" whatever fixture it belongs to
(the conversion receives no fixture date at all, only today's date);
for a fixture kicking off on 2026-01-15 the offset in force at the
fixture's own date is UTC+2, which would give "21:00" ≠ "22:00". -/
theorem convert_time_offset_cex :
    convert_utc_to_israel_time ⟨2026, 7, 15⟩ "19:00" = "22:00" ∧
    israelUtcOffsetHours ⟨2026, 1, 15⟩ = 2 ∧
    two ((19 + israelUtcOffsetHours ⟨2026, 1, 15⟩) % 24) ++ ":" ++ two 0 = "21:00" ∧
    ("22:00" : String) ≠ "21:00" :=
  ⟨by decide, by decide, by decide, by decide⟩

/-- C8 (amended): the stored kickoff time is the scraped UTC time
shifted by the zone-database (DST-aware) offset in force on the RUN's
current date — the dummy date `datetime.now().date()` — independent of
the fixture's own date. -/
theorem convert_time_today_offset_amended (today : PyDate) (s : String)
    (h m : Nat) (hp : strptimeHM s = some (h, m)) :
    convert_utc_to_israel_time today s =
      two ((h + israelUtcOffsetHours today) % 24) ++ ":" ++ two m := by
  unfold convert_utc_to_israel_time
  rw [hp]

/-- C8 (witness): the amended theorem on a concrete summer run date. -/
theorem convert_time_today_offset_amended_witness :
    convert_utc_to_israel_time ⟨2026, 7, 15⟩ "19:00" =
      two ((19 + israelUtcOffsetHours ⟨2026, 7, 15⟩) % 24) ++ ":" ++ two 0 :=
  convert_time_today_offset_amended _ _ _ _ (by decide)

/-- Helper: a successful `find?` splits the list at the first element
satisfying the test. -/
theorem find?_eq_some_split {α : Type} (p : α → Bool) :
    ∀ {l : List α} {e : α}, l.find? p = some e →
    ∃ pre post, l = pre ++ e :: post ∧ (∀ x ∈ pre, p x = false) ∧ p e = true := by
  intro l
  induction l with
  | nil => intro e h; simp at h
  | cons a rest ih =>
    intro e h
    by_cases hp : p a = true
    · rw [List.find?_cons_of_pos _ hp] at h
      cases h
      exact ⟨[], rest, rfl, by simp, hp⟩
    · have hp' : p a = false := by simpa using hp
      rw [List.find?_cons_of_neg _ (by simp [hp'])] at h
      obtain ⟨pre, post, hsplit, hpre, he⟩ := ih h
      refine ⟨a :: pre, post, by rw [hsplit]; rfl, ?_, he⟩
      intro x hx
      rcases List.mem_cons.mp hx with rfl | hx
      · exact hp'
      · exact hpre x hx

/-- C9: in targeted-update mode, a fixture with a non-empty tentative
marker updates AT MOST one remote event (the per-fixture result is an
`Option`): exactly the first event in list order whose title contains
the base title and not the not-final token; the body sent back keeps
location, description, start, end and reminders unchanged and only
prepends the marker to the title.  If no event qualifies, nothing is
updated.  Later qualifying events are untouched because the scan stops
at the first hit. -/
theorem targeted_update_first_match (m : RawMatch) (events : List RemoteEvent)
    (hnf : m.not_final_time ≠ "") :
    (updateForMatch m events = none →
      ∀ e ∈ events, eventNeedsUpdate m e = false) ∧
    (∀ eid body, updateForMatch m events = some (eid, body) →
      ∃ pre e post, events = pre ++ e :: post ∧
        (∀ x ∈ pre, eventNeedsUpdate m x = false) ∧
        eventNeedsUpdate m e = true ∧
        eid = e.id ∧
        body.summary = m.not_final_time ++ " " ++ e.summary ∧
        body.location = e.location ∧ body.description = e.description ∧
        body.startTime = e.startTime ∧ body.endTime = e.endTime ∧
        body.reminders = e.reminders) := by
  unfold updateForMatch
  rw [if_neg hnf]
  constructor
  · intro h e he
    cases hfind : events.find? (eventNeedsUpdate m) with
    | none =>
      have := List.find?_eq_none.mp hfind e he
      simpa using this
    | some e' =>
      rw [hfind] at h
      exact absurd h (by simp)
  · intro eid body h
    cases hfind : events.find? (eventNeedsUpdate m) with
    | none =>
      rw [hfind] at h
      exact absurd h (by simp)
    | some e =>
      rw [hfind] at h
      simp only [Option.map_some', Option.some_inj] at h
      obtain ⟨pre, post, hsplit, hpre, hp⟩ := find?_eq_some_split _ hfind
      have heid : eid = e.id := by
        have := congrArg Prod.fst h.symm
        simpa using this
      have hbody : body = updatedEventBody m e := by
        have := congrArg Prod.snd h.symm
        simpa using this
      subst hbody
      exact ⟨pre, e, post, hsplit, hpre, hp, heid, rfl, rfl, rfl, rfl, rfl, rfl⟩

/-- C9 (witness): the theorem at a fixture with marker `"(לא סופי)"` and
two remote events whose titles both contain its base title. -/
theorem targeted_update_first_match_witness :
    (updateForMatch tentativeMatch [eventOne, eventTwo] = none →
      ∀ e ∈ [eventOne, eventTwo], eventNeedsUpdate tentativeMatch e = false) ∧
    (∀ eid body, updateForMatch tentativeMatch [eventOne, eventTwo] = some (eid, body) →
      ∃ pre e post, [eventOne, eventTwo] = pre ++ e :: post ∧
        (∀ x ∈ pre, eventNeedsUpdate tentativeMatch x = false) ∧
        eventNeedsUpdate tentativeMatch e = true ∧
        eid = e.id ∧
        body.summary = tentativeMatch.not_final_time ++ " " ++ e.summary ∧
        body.location = e.location ∧ body.description = e.description ∧
        body.startTime = e.startTime ∧ body.endTime = e.endTime ∧
        body.reminders = e.reminders) :=
  targeted_update_first_match tentativeMatch [eventOne, eventTwo] (by decide)

/-- Helper: reading back the file just set. -/
theorem readFile_setFile (fs : List (String × String)) (p v : String) :
    readFile (setFile fs p v) p = some v := by
  simp [readFile, setFile]

/-- C10 (counterexample): `save_state` truncates `sync_state.json` in
place and then writes; an execution interrupted between the two
operations observes an empty state file — neither the old contents nor
the new — and the operation trace touches only the final path (no
temporary file, no rename). -/
theorem save_state_not_atomic_cex :
    readFile (runOps [(STATE_FILE, "OLD")] ((save_state_ops "NEW").take 1))
      STATE_FILE = some "" ∧
    (some "" : Option String) ≠ some "OLD" ∧
    (some "" : Option String) ≠ some "NEW" ∧
    readFile (runOps [(STATE_FILE, "OLD")] (save_state_ops "NEW")) STATE_FILE
      = some "NEW" ∧
    (save_state_ops "NEW").map FileOp.path = [STATE_FILE, STATE_FILE] :=
  ⟨by decide, by decide, by decide, by decide, by decide⟩

/-- C10 (amended): for every prior file system state and non-empty old
and new contents, `save_state` truncates the state file in place (first
operation) and writes the new contents (second); the intermediate state
observable after an interruption holds the empty string — a partially
written state distinct from both old and new — and no operation touches
any path other than the state file itself (no write-then-rename or
equivalent mechanism exists). -/
theorem save_state_in_place_amended (fs : List (String × String))
    (old c : String) (_hold : readFile fs STATE_FILE = some old)
    (h1 : old ≠ "") (h2 : c ≠ "") :
    readFile (runOps fs ((save_state_ops c).take 1)) STATE_FILE = some "" ∧
    readFile (runOps fs ((save_state_ops c).take 1)) STATE_FILE ≠ some old ∧
    readFile (runOps fs ((save_state_ops c).take 1)) STATE_FILE ≠ some c ∧
    readFile (runOps fs (save_state_ops c)) STATE_FILE = some c ∧
    (save_state_ops c).map FileOp.path = [STATE_FILE, STATE_FILE] := by
  have hmid : readFile (runOps fs ((save_state_ops c).take 1)) STATE_FILE
      = some "" := by
    simp [runOps, save_state_ops, applyOp, readFile_setFile]
  refine ⟨hmid, ?_, ?_, ?_, rfl⟩
  · rw [hmid]
    intro hc
    exact h1 (Option.some_inj.mp hc).symm
  · rw [hmid]
    intro hc
    exact h2 (Option.some_inj.mp hc).symm
  · simp [runOps, save_state_ops, applyOp, readFile_setFile]

/-- C10 (witness): the amended theorem at a concrete file system. -/
theorem save_state_in_place_amended_witness :
    readFile (runOps [(STATE_FILE, "OLD")] ((save_state_ops "NEW").take 1))
      STATE_FILE = some "" ∧
    readFile (runOps [(STATE_FILE, "OLD")] ((save_state_ops "NEW").take 1))
      STATE_FILE ≠ some "OLD" ∧
    readFile (runOps [(STATE_FILE, "OLD")] ((save_state_ops "NEW").take 1))
      STATE_FILE ≠ some "NEW" ∧
    readFile (runOps [(STATE_FILE, "OLD")] (save_state_ops "NEW")) STATE_FILE
      = some "NEW" ∧
    (save_state_ops "NEW").map FileOp.path = [STATE_FILE, STATE_FILE] :=
  save_state_in_place_amended _ _ _ rfl (by decide) (by decide)

end MHFC

namespace MHFC

/-- Validation: the MD5 embedding reproduces the RFC 1321 test digest of
`"abc"`. -/
theorem md5Hex_abc : MD5.md5Hex "abc" = "900150983cd24fb0d6963f7d28e17f72" := by
  decide

/-- Validation: the MD5 embedding handles multi-chunk input (200 bytes). -/
theorem md5Hex_long :
    MD5.md5Hex (String.mk (List.replicate 200 'a')) =
      "887f30b43b2867f4a9accceee7d16e6c" := by
  decide

/-- Validation: the sort used by the Fingerprint Engine orders by month
label first. -/
theorem sortedMatches_example :
    sortedMatches
      [⟨"2", "B", "T", "c", "v", none, none, ""⟩,
       ⟨"1", "A", "T", "c", "v", none, none, ""⟩] =
      [⟨"1", "A", "T", "c", "v", none, none, ""⟩,
       ⟨"2", "B", "T", "c", "v", none, none, ""⟩] := by
  decide

end MHFC
